import Mathlib

/-
  Verification of the credit-spread analytics in OptionClass.py.

  The numeric model uses exact rationals (ℚ) in place of IEEE floats; the
  Gaussian CDF (scipy.stats.norm.cdf, an external numeric primitive per the
  design) is taken as an abstract function parameter `cdf x μ σ`.
  Division by zero in ℚ yields the junk value 0; the only place a claim
  depends on division-by-zero behaviour (calculateKelly at odds = 0, where
  numpy floats produce a non-finite value instead of raising) is modelled
  explicitly with an Option-valued division `npDiv`.
-/

/-- Modelled from the spec: scipy.stats.norm.sf, the Gaussian survival
function, is the complement of the CDF ("survival probability beyond
breakeven"; q2 is "computed as the complementary tail").  The CDF itself is
an external numeric primitive and is passed in abstractly. -/
def norm_sf (cdf : ℚ → ℚ → ℚ → ℚ) (x μ σ : ℚ) : ℚ := 1 - cdf x μ σ

/-- Modelled from the spec: numpy float division, as used on the
scipy-produced float values inside calculateKelly.  When the divisor is
zero numpy produces a non-finite value (±infinity or NaN) and does not
raise; `none` marks that non-finite outcome. -/
def npDiv (a b : ℚ) : Option ℚ := if b = 0 then none else some (a / b)

/-- State of a constructed `PutSpread` object: the base-class fields
(`OptionClass.__init__`) followed by every attribute the `PutSpread`
initializer assigns. -/
structure PutSpread where
  principal : ℚ
  stockprice : ℚ
  sigma : ℚ
  numTrades : ℕ
  breakeven : ℚ
  pop : ℚ
  p1 : ℚ
  p2 : ℚ
  q1 : ℚ
  q2 : ℚ
  shortstrike : ℚ
  longstrike : ℚ
  credit : ℚ
  lots : ℚ
  m : ℚ
  maxloss : ℚ
  odds : ℚ

/-- State of a constructed `CallSpread` object (same attribute set). -/
structure CallSpread where
  principal : ℚ
  stockprice : ℚ
  sigma : ℚ
  numTrades : ℕ
  breakeven : ℚ
  pop : ℚ
  p1 : ℚ
  p2 : ℚ
  q1 : ℚ
  q2 : ℚ
  shortstrike : ℚ
  longstrike : ℚ
  credit : ℚ
  lots : ℚ
  m : ℚ
  maxloss : ℚ
  odds : ℚ

/-- `PutSpread.__init__` (OptionClass.py lines 53-78): computes breakeven,
the four probability masses, the slope, the maximum loss and the Kelly odds
from the trade parameters and the Gaussian CDF primitive. -/
def PutSpread.init (cdf : ℚ → ℚ → ℚ → ℚ)
    (shortstrike longstrike credit lots principal stockprice sigma : ℚ)
    (numTrades : ℕ) : PutSpread :=
  let breakeven := shortstrike - credit / (100 * lots)
  let pop := norm_sf cdf breakeven stockprice sigma
  let p1 := cdf shortstrike stockprice sigma - cdf breakeven stockprice sigma
  let p2 := pop - p1
  let q1 := cdf breakeven stockprice sigma - cdf longstrike stockprice sigma
  let q2 := cdf breakeven stockprice sigma - q1
  let m := credit / (shortstrike - breakeven)
  let maxloss := (shortstrike - longstrike - credit / (100 * lots)) * 100 * lots
  let odds := (0.5 * credit * p1 + credit * p2) / (0.5 * maxloss * q1 + maxloss * q2)
  { principal := principal, stockprice := stockprice, sigma := sigma,
    numTrades := numTrades, breakeven := breakeven, pop := pop,
    p1 := p1, p2 := p2, q1 := q1, q2 := q2,
    shortstrike := shortstrike, longstrike := longstrike,
    credit := credit, lots := lots, m := m, maxloss := maxloss, odds := odds }

/-- `CallSpread.__init__` (OptionClass.py lines 101-126): the mirror-image
derivation; note q2 is a plain survival function beyond the long strike. -/
def CallSpread.init (cdf : ℚ → ℚ → ℚ → ℚ)
    (shortstrike longstrike credit lots principal stockprice sigma : ℚ)
    (numTrades : ℕ) : CallSpread :=
  let breakeven := shortstrike + credit / (100 * lots)
  let pop := cdf breakeven stockprice sigma
  let p1 := cdf breakeven stockprice sigma - cdf shortstrike stockprice sigma
  let p2 := pop - p1
  let q1 := cdf longstrike stockprice sigma - cdf breakeven stockprice sigma
  let q2 := norm_sf cdf longstrike stockprice sigma
  let m := credit / (breakeven - shortstrike)
  let maxloss := (longstrike - shortstrike - credit / (100 * lots)) * 100 * lots
  let odds := (0.5 * credit * p1 + credit * p2) / (0.5 * maxloss * q1 + maxloss * q2)
  { principal := principal, stockprice := stockprice, sigma := sigma,
    numTrades := numTrades, breakeven := breakeven, pop := pop,
    p1 := p1, p2 := p2, q1 := q1, q2 := q2,
    shortstrike := shortstrike, longstrike := longstrike,
    credit := credit, lots := lots, m := m, maxloss := maxloss, odds := odds }

/-- `PutSpread.makeTrade` (lines 87-96), kept faithful to the if/elif/elif
chain: `none` is the fall-through path on which the Python `outcome` local
would be unbound. -/
def PutSpread.makeTrade (s : PutSpread) (trade : ℚ) : Option ℚ :=
  let allocation := s.maxloss / s.principal
  if trade ≥ s.shortstrike then some (s.principal * allocation * s.odds)
  else if s.longstrike < trade ∧ trade < s.shortstrike then
    some (s.credit - s.m * (s.shortstrike - trade))
  else if trade ≤ s.longstrike then some (-s.maxloss)
  else none

/-- `CallSpread.makeTrade` (lines 135-144), same conventions. -/
def CallSpread.makeTrade (s : CallSpread) (trade : ℚ) : Option ℚ :=
  let allocation := s.maxloss / s.principal
  if trade ≤ s.shortstrike then some (s.principal * allocation * s.odds)
  else if s.shortstrike < trade ∧ trade < s.longstrike then
    some (s.credit - s.m * (trade - s.shortstrike))
  else if trade ≥ s.longstrike then some (-s.maxloss)
  else none

/-- Total form of the PUT payoff: the value `makeTrade` returns on each of
its three branches (the branches are exhaustive, see the lemma below). -/
def PutSpread.payoff (s : PutSpread) (trade : ℚ) : ℚ :=
  if trade ≥ s.shortstrike then s.principal * (s.maxloss / s.principal) * s.odds
  else if s.longstrike < trade then s.credit - s.m * (s.shortstrike - trade)
  else -s.maxloss

/-- Total form of the CALL payoff. -/
def CallSpread.payoff (s : CallSpread) (trade : ℚ) : ℚ :=
  if trade ≤ s.shortstrike then s.principal * (s.maxloss / s.principal) * s.odds
  else if trade < s.longstrike then s.credit - s.m * (trade - s.shortstrike)
  else -s.maxloss

/-- `OptionClass.simulateTrades` (lines 18-30) specialised to `PutSpread`:
folds the trade outcomes into the running principal, starting at the
initial principal; the draw list stands for the sampled
`normal(stockprice, sigma, numTrades)` array.  (The kelly/ev attribute
assignments at the top of the Python method do not feed the loop.)
A `none` from `makeTrade` propagates, as the Python error would. -/
def PutSpread.simulateTrades (s : PutSpread) (trades : List ℚ) : Option ℚ :=
  trades.foldlM (fun acc trade => (s.makeTrade trade).map (fun outcome => acc + outcome))
    s.principal

/-- `OptionClass.simulateTrades` specialised to `CallSpread`. -/
def CallSpread.simulateTrades (s : CallSpread) (trades : List ℚ) : Option ℚ :=
  trades.foldlM (fun acc trade => (s.makeTrade trade).map (fun outcome => acc + outcome))
    s.principal

/-- `PutSpread.calculateKelly` (lines 81-84); the division is numpy float
division, modelled by `npDiv`. -/
def PutSpread.calculateKelly (s : PutSpread) : Option ℚ :=
  npDiv (s.pop * (s.odds + 1) - 1) s.odds

/-- `CallSpread.calculateKelly` (lines 129-132), textually identical. -/
def CallSpread.calculateKelly (s : CallSpread) : Option ℚ :=
  npDiv (s.pop * (s.odds + 1) - 1) s.odds

/-- `OptionClass.calculateEV` (lines 45-48). -/
def PutSpread.calculateEV (s : PutSpread) : ℚ :=
  s.p2 * s.credit + s.p1 * 0.5 * s.credit - s.q2 * s.maxloss - s.q1 * 0.5 * s.maxloss

/-- `OptionClass.calculateEV` for the call variant. -/
def CallSpread.calculateEV (s : CallSpread) : ℚ :=
  s.p2 * s.credit + s.p1 * 0.5 * s.credit - s.q2 * s.maxloss - s.q1 * 0.5 * s.maxloss

/-- Python's built-in `round` to the nearest integer value, which rounds
halves to the even neighbour (banker's rounding), on exact rationals. -/
def pyRoundInt (x : ℚ) : ℤ :=
  if Int.fract x = 1 / 2 then 2 * round (x / 2) else round x

/-- Python's `round(x, 2)`: round to two decimal places. -/
def pyRound2 (x : ℚ) : ℚ := (pyRoundInt (x * 100) : ℚ) / 100

/-- The `__main__` recommendation check (lines 169-176): the kelly fraction
and the actual allocation are converted to percentages and rounded to two
decimals before being compared. -/
def recommendation (pop kellyRaw maxloss principal changed : ℚ) : String :=
  let allocation := pyRound2 (maxloss / principal * 100)
  let kelly := pyRound2 (kellyRaw * 100)
  if pop > 0.5 ∧ kelly > 0 ∧ allocation < kelly ∧ allocation > 0 ∧ changed > principal
  then "Enter Trade" else "Do not enter trade"

/-- A linear stand-in for the abstract CDF primitive, used to evaluate the
model at concrete inputs. -/
def linCdf : ℚ → ℚ → ℚ → ℚ := fun x _ _ => x / 200

/-- The spec's golden scenario (principal 10000, stock 98, sigma 5, PUT
95/93, credit 55, one lot) built with `linCdf`. -/
def goldenPut : PutSpread := PutSpread.init linCdf 95 93 55 1 10000 98 5 1

/-- A concrete `PutSpread` state with ordered strikes, for witnesses. -/
def samplePut : PutSpread :=
  { principal := 10000, stockprice := 98, sigma := 5, numTrades := 1,
    breakeven := 94.45, pop := 0.76, p1 := 0.06, p2 := 0.7,
    q1 := 0.14, q2 := 0.1, shortstrike := 95, longstrike := 93,
    credit := 55, lots := 1, m := 100, maxloss := 145, odds := 2 }

/-- A concrete `CallSpread` state with ordered strikes, for witnesses. -/
def sampleCall : CallSpread :=
  { principal := 10000, stockprice := 90, sigma := 5, numTrades := 1,
    breakeven := 95.55, pop := 0.76, p1 := 0.06, p2 := 0.7,
    q1 := 0.14, q2 := 0.1, shortstrike := 95, longstrike := 97,
    credit := 55, lots := 1, m := 100, maxloss := 145, odds := 2 }

/-- On every input the PUT if/elif/elif chain returns `some` of the total
payoff value: the fall-through path is dead code. -/
theorem PutSpread.makeTrade_eq_payoff_put (s : PutSpread) (t : ℚ) :
    s.makeTrade t = some (s.payoff t) := by
  unfold PutSpread.makeTrade PutSpread.payoff
  rcases le_or_lt s.shortstrike t with h | h
  · simp [h]
  · rcases lt_or_le s.longstrike t with h2 | h2
    · simp [not_le.mpr h, h2, h]
    · simp [not_le.mpr h, not_lt.mpr h2, h2]

/-- Same statement for the CALL chain. -/
theorem CallSpread.makeTrade_eq_payoff_call (s : CallSpread) (t : ℚ) :
    s.makeTrade t = some (s.payoff t) := by
  unfold CallSpread.makeTrade CallSpread.payoff
  rcases le_or_lt t s.shortstrike with h | h
  · simp [h]
  · rcases lt_or_le t s.longstrike with h2 | h2
    · simp [not_le.mpr h, h2, h]
    · simp [not_le.mpr h, not_lt.mpr h2, h2]

/-- The simulation fold, generalised over the accumulator. -/
theorem PutSpread.foldl_outcomes_put (s : PutSpread) (trades : List ℚ) :
    ∀ acc : ℚ,
      trades.foldlM (fun a trade => (s.makeTrade trade).map (fun o => a + o)) acc
        = some (acc + (trades.map s.payoff).sum) := by
  induction trades with
  | nil => intro acc; simp
  | cons t ts ih =>
    intro acc
    simp only [List.foldlM_cons, s.makeTrade_eq_payoff_put t, Option.map_some', Option.bind_eq_bind,
      Option.some_bind, ih, List.map_cons, List.sum_cons]
    rw [add_assoc]

/-- The simulation fold for the call variant. -/
theorem CallSpread.foldl_outcomes_call (s : CallSpread) (trades : List ℚ) :
    ∀ acc : ℚ,
      trades.foldlM (fun a trade => (s.makeTrade trade).map (fun o => a + o)) acc
        = some (acc + (trades.map s.payoff).sum) := by
  induction trades with
  | nil => intro acc; simp
  | cons t ts ih =>
    intro acc
    simp only [List.foldlM_cons, s.makeTrade_eq_payoff_call t, Option.map_some', Option.bind_eq_bind,
      Option.some_bind, ih, List.map_cons, List.sum_cons]
    rw [add_assoc]

/-- C1: for every spread model and every draw list of length `numTrades`,
`simulateTrades` ends at the initial principal plus the sum, in draw order,
of `makeTrade` applied to each drawn price (whose per-draw value is
`payoff`); and for a PUT spread with `numTrades = 1` and the single
degenerate draw equal to `stockprice > shortstrike`, the final principal is
`principal + principal * (maxloss / principal) * odds`. -/
theorem simulateTrades_accumulates :
    (∀ (s : PutSpread) (trades : List ℚ), trades.length = s.numTrades →
      s.simulateTrades trades = some (s.principal + (trades.map s.payoff).sum)) ∧
    (∀ (s : PutSpread) (t : ℚ), s.makeTrade t = some (s.payoff t)) ∧
    (∀ (s : CallSpread) (trades : List ℚ), trades.length = s.numTrades →
      s.simulateTrades trades = some (s.principal + (trades.map s.payoff).sum)) ∧
    (∀ (s : CallSpread) (t : ℚ), s.makeTrade t = some (s.payoff t)) ∧
    (∀ s : PutSpread, s.numTrades = 1 → s.stockprice > s.shortstrike →
      s.simulateTrades [s.stockprice]
        = some (s.principal + s.principal * (s.maxloss / s.principal) * s.odds)) := by
  refine ⟨fun s trades _ => s.foldl_outcomes_put trades s.principal,
    fun s t => s.makeTrade_eq_payoff_put t,
    fun s trades _ => s.foldl_outcomes_call trades s.principal,
    fun s t => s.makeTrade_eq_payoff_call t,
    fun s _ hgt => ?_⟩
  have h := s.foldl_outcomes_put [s.stockprice] s.principal
  rw [PutSpread.simulateTrades, h]
  simp [PutSpread.payoff, le_of_lt hgt]

/-- C1 witness: a concrete one-draw simulation hitting the degenerate
branch. -/
theorem simulateTrades_accumulates_witness :
    samplePut.numTrades = 1 ∧ samplePut.stockprice > samplePut.shortstrike ∧
      samplePut.simulateTrades [samplePut.stockprice]
        = some (samplePut.principal
            + samplePut.principal * (samplePut.maxloss / samplePut.principal) * samplePut.odds) :=
  ⟨rfl, by norm_num [samplePut],
    simulateTrades_accumulates.2.2.2.2 samplePut rfl (by norm_num [samplePut])⟩

/-- C2: for every CDF primitive and every parameter set with sigma > 0,
the four probability masses of both constructed spreads sum to exactly 1
(p1 + p2 = pop and q1 + q2 is the complementary mass), hence are within
1e-6 of 1. -/
theorem prob_masses_sum_to_one (cdf : ℚ → ℚ → ℚ → ℚ)
    (ss ls credit lots principal stock sigma : ℚ) (n : ℕ) (hσ : 0 < sigma) :
    ((PutSpread.init cdf ss ls credit lots principal stock sigma n).p1
      + (PutSpread.init cdf ss ls credit lots principal stock sigma n).p2
      + (PutSpread.init cdf ss ls credit lots principal stock sigma n).q1
      + (PutSpread.init cdf ss ls credit lots principal stock sigma n).q2 = 1) ∧
    |(PutSpread.init cdf ss ls credit lots principal stock sigma n).p1
      + (PutSpread.init cdf ss ls credit lots principal stock sigma n).p2
      + (PutSpread.init cdf ss ls credit lots principal stock sigma n).q1
      + (PutSpread.init cdf ss ls credit lots principal stock sigma n).q2 - 1|
        < 1 / 1000000 ∧
    ((CallSpread.init cdf ss ls credit lots principal stock sigma n).p1
      + (CallSpread.init cdf ss ls credit lots principal stock sigma n).p2
      + (CallSpread.init cdf ss ls credit lots principal stock sigma n).q1
      + (CallSpread.init cdf ss ls credit lots principal stock sigma n).q2 = 1) ∧
    |(CallSpread.init cdf ss ls credit lots principal stock sigma n).p1
      + (CallSpread.init cdf ss ls credit lots principal stock sigma n).p2
      + (CallSpread.init cdf ss ls credit lots principal stock sigma n).q1
      + (CallSpread.init cdf ss ls credit lots principal stock sigma n).q2 - 1|
        < 1 / 1000000 := by
  have hput : (PutSpread.init cdf ss ls credit lots principal stock sigma n).p1
      + (PutSpread.init cdf ss ls credit lots principal stock sigma n).p2
      + (PutSpread.init cdf ss ls credit lots principal stock sigma n).q1
      + (PutSpread.init cdf ss ls credit lots principal stock sigma n).q2 = 1 := by
    simp only [PutSpread.init, norm_sf]
    ring
  have hcall : (CallSpread.init cdf ss ls credit lots principal stock sigma n).p1
      + (CallSpread.init cdf ss ls credit lots principal stock sigma n).p2
      + (CallSpread.init cdf ss ls credit lots principal stock sigma n).q1
      + (CallSpread.init cdf ss ls credit lots principal stock sigma n).q2 = 1 := by
    simp only [CallSpread.init, norm_sf]
    ring
  refine ⟨hput, ?_, hcall, ?_⟩
  · rw [hput]; norm_num
  · rw [hcall]; norm_num

/-- C2 witness: the golden PUT scenario and its CALL counterpart at
sigma = 5. -/
theorem prob_masses_sum_to_one_witness :
    (0 : ℚ) < 5 ∧
      (PutSpread.init linCdf 95 93 55 1 10000 98 5 1).p1
        + (PutSpread.init linCdf 95 93 55 1 10000 98 5 1).p2
        + (PutSpread.init linCdf 95 93 55 1 10000 98 5 1).q1
        + (PutSpread.init linCdf 95 93 55 1 10000 98 5 1).q2 = 1 :=
  ⟨by norm_num, (prob_masses_sum_to_one linCdf 95 93 55 1 10000 98 5 1 (by norm_num)).1⟩

/-- C3: on each region of the price line, `makeTrade` returns the claimed
branch value — full credit `principal * (maxloss / principal) * odds` at or
beyond the short strike, the linear interpolation strictly between the
strikes, and exactly `-maxloss` at or beyond the long strike (boundary
inclusive); the CALL variant is the mirror image with the linear term
`m * (trade - shortstrike)`.  Strikes are ordered as a credit spread
requires. -/
theorem makeTrade_branch_values (p : PutSpread) (c : CallSpread) (t u : ℚ)
    (hp : p.longstrike < p.shortstrike) (hc : c.shortstrike < c.longstrike) :
    (t ≥ p.shortstrike →
      p.makeTrade t = some (p.principal * (p.maxloss / p.principal) * p.odds)) ∧
    (p.longstrike < t ∧ t < p.shortstrike →
      p.makeTrade t = some (p.credit - p.m * (p.shortstrike - t))) ∧
    (t ≤ p.longstrike → p.makeTrade t = some (-p.maxloss)) ∧
    (u ≤ c.shortstrike →
      c.makeTrade u = some (c.principal * (c.maxloss / c.principal) * c.odds)) ∧
    (c.shortstrike < u ∧ u < c.longstrike →
      c.makeTrade u = some (c.credit - c.m * (u - c.shortstrike))) ∧
    (u ≥ c.longstrike → c.makeTrade u = some (-c.maxloss)) := by
  refine ⟨fun h => ?_, fun h => ?_, fun h => ?_, fun h => ?_, fun h => ?_, fun h => ?_⟩
  · rw [p.makeTrade_eq_payoff_put t, PutSpread.payoff, if_pos h]
  · rw [p.makeTrade_eq_payoff_put t, PutSpread.payoff, if_neg (not_le.mpr h.2), if_pos h.1]
  · rw [p.makeTrade_eq_payoff_put t, PutSpread.payoff,
      if_neg (not_le.mpr (lt_of_le_of_lt h hp)), if_neg (not_lt.mpr h)]
  · rw [c.makeTrade_eq_payoff_call u, CallSpread.payoff, if_pos h]
  · rw [c.makeTrade_eq_payoff_call u, CallSpread.payoff, if_neg (not_le.mpr h.1), if_pos h.2]
  · rw [c.makeTrade_eq_payoff_call u, CallSpread.payoff,
      if_neg (not_le.mpr (lt_of_lt_of_le hc h)), if_neg (not_lt.mpr h)]

/-- C3 witness: one concrete trade in each of the three PUT regions and the
full-credit CALL region. -/
theorem makeTrade_branch_values_witness :
    samplePut.makeTrade 98
        = some (samplePut.principal * (samplePut.maxloss / samplePut.principal) * samplePut.odds)
      ∧ samplePut.makeTrade 94
        = some (samplePut.credit - samplePut.m * (samplePut.shortstrike - 94))
      ∧ samplePut.makeTrade 92 = some (-samplePut.maxloss)
      ∧ sampleCall.makeTrade 90
        = some (sampleCall.principal * (sampleCall.maxloss / sampleCall.principal) * sampleCall.odds) :=
  ⟨(makeTrade_branch_values samplePut sampleCall 98 90 (by norm_num [samplePut])
      (by norm_num [sampleCall])).1 (by norm_num [samplePut]),
   (makeTrade_branch_values samplePut sampleCall 94 90 (by norm_num [samplePut])
      (by norm_num [sampleCall])).2.1 (by norm_num [samplePut]),
   (makeTrade_branch_values samplePut sampleCall 92 90 (by norm_num [samplePut])
      (by norm_num [sampleCall])).2.2.1 (by norm_num [samplePut]),
   (makeTrade_branch_values samplePut sampleCall 98 90 (by norm_num [samplePut])
      (by norm_num [sampleCall])).2.2.2.1 (by norm_num [sampleCall])⟩

/-- C4: with ordered strikes, exactly one of the three branch conditions of
`makeTrade` holds for every trade price, and `makeTrade` always returns an
outcome — the fall-through path (`none`, on which the Python local
`outcome` would be unbound) is unreachable. -/
theorem makeTrade_branches_exhaustive (p : PutSpread) (c : CallSpread) (t u : ℚ)
    (hp : p.longstrike < p.shortstrike) (hc : c.shortstrike < c.longstrike) :
    ((t ≥ p.shortstrike ∧ ¬(p.longstrike < t ∧ t < p.shortstrike) ∧ ¬t ≤ p.longstrike) ∨
     (¬t ≥ p.shortstrike ∧ (p.longstrike < t ∧ t < p.shortstrike) ∧ ¬t ≤ p.longstrike) ∨
     (¬t ≥ p.shortstrike ∧ ¬(p.longstrike < t ∧ t < p.shortstrike) ∧ t ≤ p.longstrike)) ∧
    (p.makeTrade t).isSome = true ∧
    ((u ≤ c.shortstrike ∧ ¬(c.shortstrike < u ∧ u < c.longstrike) ∧ ¬u ≥ c.longstrike) ∨
     (¬u ≤ c.shortstrike ∧ (c.shortstrike < u ∧ u < c.longstrike) ∧ ¬u ≥ c.longstrike) ∨
     (¬u ≤ c.shortstrike ∧ ¬(c.shortstrike < u ∧ u < c.longstrike) ∧ u ≥ c.longstrike)) ∧
    (c.makeTrade u).isSome = true := by
  refine ⟨?_, by rw [p.makeTrade_eq_payoff_put t]; rfl, ?_,
    by rw [c.makeTrade_eq_payoff_call u]; rfl⟩
  · rcases le_or_lt p.shortstrike t with h | h
    · exact Or.inl ⟨h, fun hmid => absurd h (not_le.mpr hmid.2),
        fun hlo => absurd h (not_le.mpr (lt_of_le_of_lt hlo hp))⟩
    · rcases lt_or_le p.longstrike t with h2 | h2
      · exact Or.inr (Or.inl ⟨not_le.mpr h, ⟨h2, h⟩, not_le.mpr h2⟩)
      · exact Or.inr (Or.inr ⟨not_le.mpr h, fun hmid => absurd h2 (not_le.mpr hmid.1), h2⟩)
  · rcases le_or_lt u c.shortstrike with h | h
    · exact Or.inl ⟨h, fun hmid => absurd h (not_le.mpr hmid.1),
        fun hhi => absurd h (not_le.mpr (lt_of_lt_of_le hc hhi))⟩
    · rcases lt_or_le u c.longstrike with h2 | h2
      · exact Or.inr (Or.inl ⟨not_le.mpr h, ⟨h, h2⟩, not_le.mpr h2⟩)
      · exact Or.inr (Or.inr ⟨not_le.mpr h, fun hmid => absurd h2 (not_le.mpr hmid.2), h2⟩)

/-- C4 witness: the branch trichotomy and totality at a concrete pair of
spreads and prices. -/
theorem makeTrade_branches_exhaustive_witness :
    (samplePut.makeTrade 94).isSome = true ∧ (sampleCall.makeTrade 96).isSome = true :=
  ⟨(makeTrade_branches_exhaustive samplePut sampleCall 94 96 (by norm_num [samplePut])
      (by norm_num [sampleCall])).2.1,
   (makeTrade_branches_exhaustive samplePut sampleCall 94 96 (by norm_num [samplePut])
      (by norm_num [sampleCall])).2.2.2⟩

/-- C5: with nonzero principal, the full-credit branch value
`principal * (maxloss / principal) * odds` collapses to `maxloss * odds`
for both variants — it does not depend on the principal — and on the
golden scenario that value differs from the literal credit received. -/
theorem full_credit_branch_maxloss_odds (p : PutSpread) (c : CallSpread) (t u : ℚ)
    (hpp : p.principal ≠ 0) (hcp : c.principal ≠ 0) :
    (t ≥ p.shortstrike → p.makeTrade t = some (p.maxloss * p.odds)) ∧
    (u ≤ c.shortstrike → c.makeTrade u = some (c.maxloss * c.odds)) ∧
    goldenPut.maxloss * goldenPut.odds ≠ goldenPut.credit := by
  refine ⟨fun h => ?_, fun h => ?_,
    by norm_num [goldenPut, PutSpread.init, norm_sf, linCdf]⟩
  · rw [p.makeTrade_eq_payoff_put t, PutSpread.payoff, if_pos h,
      mul_comm p.principal (p.maxloss / p.principal), div_mul_cancel₀ p.maxloss hpp]
  · rw [c.makeTrade_eq_payoff_call u, CallSpread.payoff, if_pos h,
      mul_comm c.principal (c.maxloss / c.principal), div_mul_cancel₀ c.maxloss hcp]

/-- C5 witness: the collapse evaluated on concrete spreads. -/
theorem full_credit_branch_maxloss_odds_witness :
    samplePut.makeTrade 98 = some (samplePut.maxloss * samplePut.odds) ∧
      sampleCall.makeTrade 90 = some (sampleCall.maxloss * sampleCall.odds) :=
  ⟨(full_credit_branch_maxloss_odds samplePut sampleCall 98 90 (by norm_num [samplePut])
      (by norm_num [sampleCall])).1 (by norm_num [samplePut]),
   (full_credit_branch_maxloss_odds samplePut sampleCall 98 90 (by norm_num [samplePut])
      (by norm_num [sampleCall])).2.1 (by norm_num [sampleCall])⟩

/-- C6 counterexample: with pop = 0.6, kelly = 1/100000,
maxLoss/principal = 1/1000000, initial principal 1 and final principal 2,
every raw condition of the claim holds (pop > 0.5, kelly > 0,
actualAllocation < kelly, actualAllocation > 0, final > initial), yet the
code answers "Do not enter trade": it compares the percentage values
rounded to two decimals, and both rounded values are 0 here. -/
theorem recommendation_raw_conditions_refuted :
    ((0.6 : ℚ) > 0.5 ∧ (1 / 100000 : ℚ) > 0 ∧ (1 / 1000000 : ℚ) / 1 < 1 / 100000 ∧
      (1 / 1000000 : ℚ) / 1 > 0 ∧ (2 : ℚ) > 1) ∧
    recommendation 0.6 (1 / 100000) (1 / 1000000) 1 2 = "Do not enter trade" := by
  constructor
  · norm_num
  · unfold recommendation pyRound2 pyRoundInt
    norm_num [Int.fract, round_eq]

/-- C6 (amended): the recommendation is "Enter Trade" iff pop > 0.5,
`round(kelly*100, 2) > 0`, `round(allocation*100, 2) < round(kelly*100, 2)`,
`round(allocation*100, 2) > 0` and finalPrincipal > initialPrincipal, where
allocation = maxLoss/principal — i.e. the kelly and allocation comparisons
are made on the two-decimal-rounded percentage values. -/
theorem recommendation_iff_rounded (pop kellyRaw maxloss principal changed : ℚ) :
    recommendation pop kellyRaw maxloss principal changed = "Enter Trade" ↔
      (pop > 0.5 ∧ pyRound2 (kellyRaw * 100) > 0 ∧
       pyRound2 (maxloss / principal * 100) < pyRound2 (kellyRaw * 100) ∧
       pyRound2 (maxloss / principal * 100) > 0 ∧ changed > principal) := by
  unfold recommendation
  dsimp only
  split_ifs with h
  · exact iff_of_true rfl h
  · exact iff_of_false (fun hEq => absurd hEq (by decide)) h

/-- C7: for both variants the derived maxloss equals
`(width - credit/(100*lots)) * 100 * lots` with the width signed per
variant, and it is positive whenever the strikes are correctly ordered and
the per-share credit is below the strike width. -/
theorem maxloss_formula_and_positive (cdf : ℚ → ℚ → ℚ → ℚ)
    (ss ls credit lots principal stock sigma : ℚ) (n : ℕ) (hlots : 1 ≤ lots) :
    ((PutSpread.init cdf ss ls credit lots principal stock sigma n).maxloss
      = (ss - ls - credit / (100 * lots)) * 100 * lots) ∧
    (ls < ss → credit / (100 * lots) < ss - ls →
      0 < (PutSpread.init cdf ss ls credit lots principal stock sigma n).maxloss) ∧
    ((CallSpread.init cdf ss ls credit lots principal stock sigma n).maxloss
      = (ls - ss - credit / (100 * lots)) * 100 * lots) ∧
    (ss < ls → credit / (100 * lots) < ls - ss →
      0 < (CallSpread.init cdf ss ls credit lots principal stock sigma n).maxloss) := by
  have hl0 : (0 : ℚ) < lots := lt_of_lt_of_le one_pos hlots
  have hput : (PutSpread.init cdf ss ls credit lots principal stock sigma n).maxloss
      = (ss - ls - credit / (100 * lots)) * 100 * lots := by
    simp [PutSpread.init]
  have hcall : (CallSpread.init cdf ss ls credit lots principal stock sigma n).maxloss
      = (ls - ss - credit / (100 * lots)) * 100 * lots := by
    simp [CallSpread.init]
  refine ⟨hput, fun _ hcps => ?_, hcall, fun _ hcps => ?_⟩
  · rw [hput]
    have hw : 0 < ss - ls - credit / (100 * lots) := by linarith
    exact mul_pos (mul_pos hw (by norm_num)) hl0
  · rw [hcall]
    have hw : 0 < ls - ss - credit / (100 * lots) := by linarith
    exact mul_pos (mul_pos hw (by norm_num)) hl0

/-- C7 witness: the golden PUT scenario, maxloss = 145 > 0. -/
theorem maxloss_formula_and_positive_witness :
    (1 : ℚ) ≤ 1 ∧ (93 : ℚ) < 95 ∧ (55 : ℚ) / (100 * 1) < 95 - 93 ∧
      0 < (PutSpread.init linCdf 95 93 55 1 10000 98 5 1).maxloss :=
  ⟨by norm_num, by norm_num, by norm_num,
    (maxloss_formula_and_positive linCdf 95 93 55 1 10000 98 5 1
      (by norm_num)).2.1 (by norm_num) (by norm_num)⟩

/-- C8: `calculateKelly` computes `(pop * (odds + 1) - 1) / odds` for both
variants; pop = 0.6 and odds = 1 give exactly 0.2; and at odds = 0 the
numpy division yields the non-finite marker (`none`), a degenerate value
rather than a raised error — the function is total. -/
theorem calculateKelly_formula :
    (∀ s : PutSpread, s.odds ≠ 0 →
      s.calculateKelly = some ((s.pop * (s.odds + 1) - 1) / s.odds)) ∧
    (∀ s : CallSpread, s.odds ≠ 0 →
      s.calculateKelly = some ((s.pop * (s.odds + 1) - 1) / s.odds)) ∧
    (∀ s : PutSpread, s.pop = 0.6 → s.odds = 1 → s.calculateKelly = some 0.2) ∧
    (∀ s : CallSpread, s.pop = 0.6 → s.odds = 1 → s.calculateKelly = some 0.2) ∧
    (∀ s : PutSpread, s.odds = 0 → s.calculateKelly = none) ∧
    (∀ s : CallSpread, s.odds = 0 → s.calculateKelly = none) := by
  refine ⟨fun s h => ?_, fun s h => ?_, fun s hpop hodds => ?_, fun s hpop hodds => ?_,
    fun s h => ?_, fun s h => ?_⟩
  · rw [PutSpread.calculateKelly, npDiv, if_neg h]
  · rw [CallSpread.calculateKelly, npDiv, if_neg h]
  · rw [PutSpread.calculateKelly, hpop, hodds]; norm_num [npDiv]
  · rw [CallSpread.calculateKelly, hpop, hodds]; norm_num [npDiv]
  · rw [PutSpread.calculateKelly, h, npDiv, if_pos rfl]
  · rw [CallSpread.calculateKelly, h, npDiv, if_pos rfl]

/-- C8 witness: the formula evaluated on a concrete spread with odds 2. -/
theorem calculateKelly_formula_witness :
    samplePut.odds ≠ 0 ∧
      samplePut.calculateKelly
        = some ((samplePut.pop * (samplePut.odds + 1) - 1) / samplePut.odds) :=
  ⟨by norm_num [samplePut], calculateKelly_formula.1 samplePut (by norm_num [samplePut])⟩

/-- C9: with lots ≥ 1 and positive credit, construction never fails: the
initializers are total functions that always deliver a fully populated
model (the input parameters are stored unchanged, whatever sigma is), and
inverted strikes silently give a negative maxloss instead of an
InvalidParameters rejection. -/
theorem construction_total_degenerate (cdf : ℚ → ℚ → ℚ → ℚ)
    (ss ls credit lots principal stock sigma : ℚ) (n : ℕ)
    (hlots : 1 ≤ lots) (hcred : 0 < credit) :
    ((PutSpread.init cdf ss ls credit lots principal stock sigma n).principal = principal ∧
     (PutSpread.init cdf ss ls credit lots principal stock sigma n).sigma = sigma ∧
     (PutSpread.init cdf ss ls credit lots principal stock sigma n).shortstrike = ss ∧
     (PutSpread.init cdf ss ls credit lots principal stock sigma n).longstrike = ls) ∧
    (ss < ls → (PutSpread.init cdf ss ls credit lots principal stock sigma n).maxloss < 0) ∧
    ((CallSpread.init cdf ss ls credit lots principal stock sigma n).principal = principal ∧
     (CallSpread.init cdf ss ls credit lots principal stock sigma n).sigma = sigma ∧
     (CallSpread.init cdf ss ls credit lots principal stock sigma n).shortstrike = ss ∧
     (CallSpread.init cdf ss ls credit lots principal stock sigma n).longstrike = ls) ∧
    (ls < ss → (CallSpread.init cdf ss ls credit lots principal stock sigma n).maxloss < 0) := by
  have hl0 : (0 : ℚ) < lots := lt_of_lt_of_le one_pos hlots
  have hcps : 0 < credit / (100 * lots) := div_pos hcred (by linarith)
  refine ⟨⟨rfl, rfl, rfl, rfl⟩, fun hinv => ?_, ⟨rfl, rfl, rfl, rfl⟩, fun hinv => ?_⟩
  · have : (PutSpread.init cdf ss ls credit lots principal stock sigma n).maxloss
        = (ss - ls - credit / (100 * lots)) * 100 * lots := by simp [PutSpread.init]
    rw [this]
    have hw : ss - ls - credit / (100 * lots) < 0 := by linarith
    exact mul_neg_of_neg_of_pos (mul_neg_of_neg_of_pos hw (by norm_num)) hl0
  · have : (CallSpread.init cdf ss ls credit lots principal stock sigma n).maxloss
        = (ls - ss - credit / (100 * lots)) * 100 * lots := by simp [CallSpread.init]
    rw [this]
    have hw : ls - ss - credit / (100 * lots) < 0 := by linarith
    exact mul_neg_of_neg_of_pos (mul_neg_of_neg_of_pos hw (by norm_num)) hl0

/-- C9 witness: a PUT built with inverted strikes (95/99) is fully
constructed and carries a negative maxloss. -/
theorem construction_total_degenerate_witness :
    (1 : ℚ) ≤ 1 ∧ (0 : ℚ) < 55 ∧ (95 : ℚ) < 99 ∧
      (PutSpread.init linCdf 95 99 55 1 10000 98 5 1).maxloss < 0 :=
  ⟨by norm_num, by norm_num, by norm_num,
    (construction_total_degenerate linCdf 95 99 55 1 10000 98 5 1
      (by norm_num) (by norm_num)).2.1 (by norm_num)⟩

/-- C10: with positive credit and lots ≥ 1, the partial-zone slope of both
variants is exactly `100 * lots`, independent of credit, strikes, stock
price and sigma: the distance from the short strike to breakeven is
`credit / (100 * lots)` by construction. -/
theorem slope_equals_100_lots (cdf : ℚ → ℚ → ℚ → ℚ)
    (ss ls credit lots principal stock sigma : ℚ) (n : ℕ)
    (hcred : 0 < credit) (hlots : 1 ≤ lots) :
    (PutSpread.init cdf ss ls credit lots principal stock sigma n).m = 100 * lots ∧
    (CallSpread.init cdf ss ls credit lots principal stock sigma n).m = 100 * lots := by
  have hc0 : credit ≠ 0 := ne_of_gt hcred
  have hl0 : lots ≠ 0 := by
    intro h
    rw [h] at hlots
    norm_num at hlots
  constructor
  · have h1 : (PutSpread.init cdf ss ls credit lots principal stock sigma n).m
        = credit / (ss - (ss - credit / (100 * lots))) := by simp [PutSpread.init]
    rw [h1]
    have h2 : ss - (ss - credit / (100 * lots)) = credit / (100 * lots) := by ring
    rw [h2]
    field_simp
  · have h1 : (CallSpread.init cdf ss ls credit lots principal stock sigma n).m
        = credit / (ss + credit / (100 * lots) - ss) := by simp [CallSpread.init]
    rw [h1]
    have h2 : ss + credit / (100 * lots) - ss = credit / (100 * lots) := by ring
    rw [h2]
    field_simp

/-- C10 witness: one lot, credit 55 — the slope is 100 for both variants. -/
theorem slope_equals_100_lots_witness :
    (0 : ℚ) < 55 ∧ (1 : ℚ) ≤ 1 ∧
      (PutSpread.init linCdf 95 93 55 1 10000 98 5 1).m = 100 * 1 :=
  ⟨by norm_num, by norm_num,
    (slope_equals_100_lots linCdf 95 93 55 1 10000 98 5 1 (by norm_num) (by norm_num)).1⟩
